import Mathlib

/-!
Verification of the RIP-7560 native smart-account layer: a shallow
embedding of `toNativeSmartAccount` (the factory that wraps an account
implementation with deployment-state tracking, nonce-key derivation,
deployer-argument gating and conditional ERC-6492 signature wrapping)
and of `toSimpleNativeSmartAccount` (the reference implementation built
on the `SimpleAccount_7560` execute/executeBatch dispatch ABI).

External collaborators (ABI codec, EIP-712 hasher, ERC-6492 envelope
serializer, on-chain code probe, nonce key manager, owner signer) are
modelled at their interface boundary as free/injective constructors or
as oracle function parameters, never re-implemented.
-/

/-- Account addresses, kept as their hex-string representation. -/
abbrev Address := String

/-- Hex-encoded byte strings. -/
abbrev Hex := String

/-- Result of `getDeployerArgs`: deployment target and calldata, each
optional (in the source, `undefined` marks an absent field). -/
structure DeployerArgs where
  deployer : Option Address
  deployerData : Option Hex
deriving DecidableEq, Repr

/-- EIP-712 domain record, as passed to `hashTypedData`. -/
structure Eip712Domain where
  name : String
  version : String
  chainId : Nat
  verifyingContract : Address
deriving DecidableEq, Repr

mutual

/-- Free model of the external 256-bit hash collaborators: a hash value
is identified by the operation and operands that produced it.
`raw` is a caller-supplied bytes32; `ofMessage` is `hashMessage`;
`ofTypedData` is `hashTypedData` applied to (domain, types, primaryType,
message). -/
inductive HashValue where
  | raw : String → HashValue
  | ofMessage : String → HashValue
  | ofTypedData :
      Option Eip712Domain → List (String × List (String × String)) → String →
      MessageValue → HashValue

/-- The `message` argument of `hashTypedData`: either the one-field
struct shape `\x7b hash: bytes32 \x7d` used by the replay-safe hash, or an
arbitrary user-supplied structured message (its fields kept as opaque
key/value strings at this layer). -/
inductive MessageValue where
  | hashField : HashValue → MessageValue
  | fields : List (String × String) → MessageValue

end

/-- External collaborator `hashMessage` (EIP-191 personal-sign hash). -/
def hashMessage (message : String) : HashValue :=
  HashValue.ofMessage message

/-- External collaborator `hashTypedData` (EIP-712 structured hash). -/
def hashTypedData (domain : Option Eip712Domain)
    (types : List (String × List (String × String)))
    (primaryType : String) (message : MessageValue) : HashValue :=
  HashValue.ofTypedData domain types primaryType message

/-- Output of a wrapped signature operation: either the raw signature
bytes returned by the implementation, unchanged, or the ERC-6492
envelope serialization of (deployer address, deployer calldata, raw
signature). -/
inductive WireSignature (Sig : Type) where
  | plain : Sig → WireSignature Sig
  | erc6492 : Address → Hex → Sig → WireSignature Sig
deriving DecidableEq, Repr

/-- External collaborator `serializeErc6492Signature`: the ERC-6492
envelope codec, modelled as an injective constructor. -/
def serializeErc6492Signature {Sig : Type} (address : Address) (data : Hex)
    (signature : Sig) : WireSignature Sig :=
  WireSignature.erc6492 address data signature

namespace ToNativeSmartAccount

/-- The mutable state owned by one Smart Account value produced by
`toNativeSmartAccount`: the memoized `deployed` flag (source:
`let deployed = false`) together with a counter into the oracle of
`getCode` probe results. -/
structure AccountState where
  deployed : Bool
  probeIdx : Nat
deriving DecidableEq, Repr

/-- The wrapped `isDeployed()`: returns the cached `true` immediately;
otherwise issues one `getCode` probe (whose result the oracle `probe`
supplies per call index), stores the boolean result in the cache, and
returns it. -/
def isDeployed (probe : Nat → Bool) (st : AccountState) : Bool × AccountState :=
  if st.deployed then (true, st)
  else
    let code := probe st.probeIdx
    (code, ⟨code, st.probeIdx + 1⟩)

/-- A sequence of `n` successive `isDeployed()` invocations, each run to
completion, returning the list of observed results. -/
def isDeployedRun (probe : Nat → Bool) : AccountState → Nat → List Bool
  | _, 0 => []
  | st, n + 1 =>
      (isDeployed probe st).1 :: isDeployedRun probe (isDeployed probe st).2 n

/-- The wrapped `getDeployerArgs()`: both fields `undefined` when
`isDeployed()` answers true for this call, otherwise exactly the result
of the implementation-provided `getDeployerArgs` (here `implArgs`, the
value the implementation resolves to). -/
def getDeployerArgs (implArgs : DeployerArgs) (probe : Nat → Bool)
    (st : AccountState) : DeployerArgs × AccountState :=
  let probed := isDeployed probe st
  if probed.1 then (⟨none, none⟩, probed.2) else (implArgs, probed.2)

/-- Parameters of the wrapped `getNonce`. -/
structure GetNonceParameters where
  key : Option Nat
deriving DecidableEq, Repr

/-- The wrapped `getNonce`: a caller-supplied `parameters.key` wins
verbatim; otherwise one key is consumed from the bound nonce key
manager scoped to (address, chainId) (`consume` maps manager state to
the produced key and successor state). The derived key is then passed
to the implementation-provided `getNonce` when present, and otherwise
used for the default on-chain lookup on the nonce-manager predeploy
(oracle `chainNonce`, keyed by (address, key)). -/
def getNonce (address : Address) (chainId : Nat)
    (consume : Address → Nat → Nat → Nat × Nat)
    (implGetNonce : Option (Nat → Nat))
    (chainNonce : Address → Nat → Nat)
    (parameters : Option GetNonceParameters) (mgr : Nat) : Nat × Nat :=
  let derived : Nat × Nat :=
    match parameters.bind (fun p => p.key) with
    | some k => (k, mgr)
    | none => consume address chainId mgr
  match implGetNonce with
  | some g => (g derived.1, derived.2)
  | none => (chainNonce address derived.1, derived.2)

/-- The wrapped `signMessage`: resolves `this.getDeployerArgs()` and the
matching signing operation of the implementation; when both deployer
fields are present the raw signature is wrapped in the ERC-6492
envelope, otherwise it is returned unchanged. (In the source, the
condition `deployer && deployerData` tests both for presence; both are
non-empty strings whenever present.) -/
def signMessage {Msg Sig : Type} (implArgs : DeployerArgs)
    (implSignMessage : Msg → Sig) (probe : Nat → Bool) (st : AccountState)
    (parameters : Msg) : WireSignature Sig × AccountState :=
  let resolved := getDeployerArgs implArgs probe st
  let signature := implSignMessage parameters
  match resolved.1.deployer, resolved.1.deployerData with
  | some deployer, some deployerData =>
      (serializeErc6492Signature deployer deployerData signature, resolved.2)
  | _, _ => (WireSignature.plain signature, resolved.2)

/-- The wrapped `signTypedData`, with the same wrapping rule as
`signMessage`. -/
def signTypedData {TD Sig : Type} (implArgs : DeployerArgs)
    (implSignTypedData : TD → Sig) (probe : Nat → Bool) (st : AccountState)
    (parameters : TD) : WireSignature Sig × AccountState :=
  let resolved := getDeployerArgs implArgs probe st
  let signature := implSignTypedData parameters
  match resolved.1.deployer, resolved.1.deployerData with
  | some deployer, some deployerData =>
      (serializeErc6492Signature deployer deployerData signature, resolved.2)
  | _, _ => (WireSignature.plain signature, resolved.2)

/-- The wrapped raw-hash `sign`: present on the wrapped account exactly
when the implementation provides `sign` (source: the conditional object
spread), with the same wrapping rule as `signMessage`. -/
def sign {H Sig : Type} (implArgs : DeployerArgs)
    (implSign : Option (H → Sig)) (probe : Nat → Bool) (st : AccountState)
    (parameters : H) : Option (WireSignature Sig × AccountState) :=
  implSign.map fun f =>
    let resolved := getDeployerArgs implArgs probe st
    let signature := f parameters
    match resolved.1.deployer, resolved.1.deployerData with
    | some deployer, some deployerData =>
        (serializeErc6492Signature deployer deployerData signature, resolved.2)
    | _, _ => (WireSignature.plain signature, resolved.2)

end ToNativeSmartAccount

namespace ToSimpleNativeSmartAccount

/-- A single call, as in the source `Call` type:
`\x7b to: Hex, data?: Hex, value?: bigint \x7d` (uint256 values are
modelled as `Nat`; the source field `to` is `toAddr` here, `to` being a
reserved word). -/
structure Call where
  toAddr : Address
  data : Option Hex
  value : Option Nat
deriving DecidableEq, Repr

/-- Calldata at the boundary of the external ABI call codec, modelled as
the decoded shape `decodeFunctionData` reports for it: the two dispatch
functions of the account ABI with their argument tuples, any other
function of the ABI (`otherFunction`, carrying its `functionName`), or a
selector absent from the ABI entirely (`unknownSelector`), on which
`decodeFunctionData` itself fails. -/
inductive CallData where
  | execute : Address → Nat → Hex → CallData
  | executeBatch : List Address → List Nat → List Hex → CallData
  | otherFunction : String → CallData
  | unknownSelector : Hex → CallData
deriving DecidableEq, Repr

/-- True exactly on the single-call dispatch encoding. -/
def CallData.isSingleDispatch : CallData → Bool
  | CallData.execute _ _ _ => true
  | _ => false

/-- True exactly on the batch dispatch encoding. -/
def CallData.isBatchDispatch : CallData → Bool
  | CallData.executeBatch _ _ _ => true
  | _ => false

/-- `encodeCalls`: exactly one call is encoded as an `execute` dispatch
with `value` defaulted to `0` and `data` defaulted to `0x`; any other
length is encoded as an `executeBatch` dispatch of the three parallel
argument arrays. -/
def encodeCalls : List Call → CallData
  | [call] =>
      CallData.execute call.toAddr (call.value.getD 0) (call.data.getD "0x")
  | calls =>
      CallData.executeBatch (calls.map fun call => call.toAddr)
        (calls.map fun call => call.value.getD 0)
        (calls.map fun call => call.data.getD "0x")

/-- The `executeBatch` arm of `decodeCalls`: the source maps over the
target array with the running index and reads `args[1][index]` and
`args[2][index]`, an out-of-range read giving `undefined` (here
`none`). The recursion keeps the three cursors aligned, so position `i`
of the first list is paired with position `i` of the other two. -/
def decodeBatchCalls : List Address → List Nat → List Hex → List Call
  | [], _, _ => []
  | target :: rest, values, datas =>
      ⟨target, datas.head?, values.head?⟩ ::
        decodeBatchCalls rest values.tail datas.tail

/-- `decodeCalls`: recognizes the `execute` and `executeBatch` dispatch
selectors; any other function of the ABI raises the explicit
`unable to decode calls` error naming the decoded function, and a
selector outside the ABI propagates the signature-not-found failure of
the external `decodeFunctionData`. -/
def decodeCalls : CallData → Except String (List Call)
  | CallData.execute dest value func =>
      Except.ok [⟨dest, some func, some value⟩]
  | CallData.executeBatch dest value func =>
      Except.ok (decodeBatchCalls dest value func)
  | CallData.otherFunction functionName =>
      Except.error ("unable to decode calls for \"" ++ functionName ++ "\"")
  | CallData.unknownSelector selector =>
      Except.error
        ("Encoded function signature \"" ++ selector ++ "\" not found on ABI")

/-- The round-trip image of one call: `to` preserved, `data` defaulted
to empty calldata, `value` defaulted to zero. -/
def normalizeCall (call : Call) : Call :=
  ⟨call.toAddr, some (call.data.getD "0x"), some (call.value.getD 0)⟩

/-- The fixed deployer contract address bound by
`toSimpleNativeSmartAccount`. -/
def deployerAddress : Address := "0x0ba5ed0c6aa8c49038f819e587e2633c4a9f428a"

/-- External ABI encoder applied to the deployer ABI entry
`createAccount(owner, nonce)`, modelled as an injective serialization of
the function name and arguments. -/
def createAccountData (owner : Address) (nonce : Nat) : Hex :=
  "createAccount(" ++ owner ++ "," ++ toString nonce ++ ")"

/-- The Simple implementation `getDeployerArgs`: always the fixed
deployer address together with the ABI-encoded
`createAccount(ownerAddress, nonce)` calldata. -/
def getDeployerArgs (ownerAddr : Address) (nonce : Nat) : DeployerArgs :=
  ⟨some deployerAddress, some (createAccountData ownerAddr nonce)⟩

/-- The owner signer as bound by `toSimpleNativeSmartAccount`: its
address and its optional raw-hash signing capability. -/
structure LocalAccount where
  address : Address
  sign : Option (HashValue → Hex)

/-- The module-level helper `sign(\x7b hash, owner \x7d)`: delegates to the
raw-hash capability of the owner, and fails explicitly when the owner
does not provide one. -/
def signWithOwner (hash : HashValue) (owner : LocalAccount) :
    Except String Hex :=
  match owner.sign with
  | some f => Except.ok (f hash)
  | none => Except.error "`owner` does not support raw sign."

/-- `toReplaySafeHash`: binds the raw hash into the EIP-712 structure
with domain name `Simple Native Smart Wallet`, version `1`, the chain
id and the account address, primary type
`SimpleNativeSmartWalletMessage` with the single `bytes32` field
`hash`. -/
def toReplaySafeHash (address : Address) (chainId : Nat)
    (hash : HashValue) : HashValue :=
  hashTypedData (some ⟨"Simple Native Smart Wallet", "1", chainId, address⟩)
    [("SimpleNativeSmartWalletMessage", [("hash", "bytes32")])]
    "SimpleNativeSmartWalletMessage" (MessageValue.hashField hash)

/-- The Simple implementation `sign`: replay-safe hash of the given raw
hash, signed by the owner. `address` stands for the value of
`await this.getAddress()` and `chainId` for `client.chain.id`. -/
def sign (owner : LocalAccount) (address : Address) (chainId : Nat)
    (hash : HashValue) : Except String Hex :=
  signWithOwner (toReplaySafeHash address chainId hash) owner

/-- The Simple implementation `signMessage`: replay-safe hash of
`hashMessage(message)`, signed by the owner. -/
def signMessage (owner : LocalAccount) (address : Address) (chainId : Nat)
    (message : String) : Except String Hex :=
  signWithOwner (toReplaySafeHash address chainId (hashMessage message)) owner

/-- The typed-data parameters accepted by the Simple implementation
`signTypedData`: domain, types, primary type and message, as handed to
the external `hashTypedData`. -/
structure TypedDataParameters where
  domain : Option Eip712Domain
  types : List (String × List (String × String))
  primaryType : String
  message : MessageValue

/-- The Simple implementation `signTypedData`: replay-safe hash of
`hashTypedData(parameters)`, signed by the owner. -/
def signTypedData (owner : LocalAccount) (address : Address) (chainId : Nat)
    (parameters : TypedDataParameters) : Except String Hex :=
  signWithOwner
    (toReplaySafeHash address chainId
      (hashTypedData parameters.domain parameters.types parameters.primaryType
        parameters.message)) owner

/-- Fuel-driven base-2 logarithm on `Nat` (floor), total and kernel
reducible; the fuel `n` bounds the number of halvings. -/
def natLog2Aux : Nat → Nat → Nat
  | 0, _ => 0
  | fuel + 1, n => if n < 2 then 0 else natLog2Aux fuel (n / 2) + 1

/-- Floor of the base-2 logarithm, used to locate the leading bit. -/
def natLog2 (n : Nat) : Nat := natLog2Aux n n

/-- Model of the JavaScript round trip `BigInt(Number(x))` on a
non-negative integer: conversion to an IEEE-754 binder-free double
(round to nearest, ties to even, 53 significant bits) and back. Exact
below `2 ^ 53`; a uint256 never reaches the double overflow
threshold. -/
def float64RoundNat (n : Nat) : Nat :=
  if n < 2 ^ 53 then n
  else
    let e := natLog2 n - 52
    let q := n / 2 ^ e
    let r := n % 2 ^ e
    let half := 2 ^ (e - 1)
    let rounded := if half < r ∨ (r = half ∧ q % 2 = 1) then q + 1 else q
    rounded * 2 ^ e

/-- The only field of the transaction request read by the default
`transaction.estimateGas` hook. -/
structure TransactionRequest where
  verificationGasLimit : Option Nat
deriving DecidableEq, Repr

/-- Result record of the default `transaction.estimateGas` hook. -/
structure EstimateGasResult where
  verificationGasLimit : Nat
deriving DecidableEq, Repr

/-- The default `transaction.estimateGas` hook of the Simple
implementation (source:
`BigInt(Number(transaction.verificationGasLimit ?? 0n))`). -/
def estimateGas (transaction : TransactionRequest) : EstimateGasResult :=
  ⟨float64RoundNat (transaction.verificationGasLimit.getD 0)⟩

end ToSimpleNativeSmartAccount

/-! ## Helper lemmas -/

namespace ToNativeSmartAccount

theorem isDeployed_fst_eq_deployed (probe : Nat → Bool) (st : AccountState) :
    (isDeployed probe st).1 = (isDeployed probe st).2.deployed := by
  unfold isDeployed
  by_cases h : st.deployed
  · simp [h]
  · simp [h]

theorem isDeployed_of_deployed (probe : Nat → Bool) (st : AccountState)
    (h : st.deployed = true) : isDeployed probe st = (true, st) := by
  simp [isDeployed, h]

theorem isDeployedRun_of_deployed (probe : Nat → Bool) (st : AccountState)
    (h : st.deployed = true) :
    ∀ n, isDeployedRun probe st n = List.replicate n true := by
  intro n
  induction n with
  | zero => rfl
  | succ m ih =>
      simp [isDeployedRun, isDeployed_of_deployed probe st h, ih,
        List.replicate_succ]

theorem replicate_true_get? :
    ∀ n j : Nat, j < n → (List.replicate n true).get? j = some true := by
  intro n
  induction n with
  | zero => intro j hj; omega
  | succ m ih =>
      intro j hj
      cases j with
      | zero => simp [List.replicate_succ]
      | succ j' =>
          simp only [List.replicate_succ, List.get?_cons_succ]
          exact ih j' (by omega)

end ToNativeSmartAccount

namespace ToSimpleNativeSmartAccount

theorem decodeBatchCalls_maps (calls : List Call) :
    decodeBatchCalls (calls.map fun call => call.toAddr)
      (calls.map fun call => call.value.getD 0)
      (calls.map fun call => call.data.getD "0x")
      = calls.map normalizeCall := by
  induction calls with
  | nil => rfl
  | cons c cs ih =>
      simp [decodeBatchCalls, normalizeCall, ih]

end ToSimpleNativeSmartAccount

/-! ## Claims -/

/-- C3: once one completed `isDeployed()` invocation on a Smart Account
instance returns `true`, every later invocation on the same instance
returns `true`, whatever the underlying code probe would answer: the
cached deployment flag never transitions back to `false`. -/
theorem claim3_isDeployed_monotone (probe : Nat → Bool)
    (st : ToNativeSmartAccount.AccountState) (n i j : Nat)
    (hij : i < j) (hjn : j < n)
    (hi : (ToNativeSmartAccount.isDeployedRun probe st n).get? i = some true) :
    (ToNativeSmartAccount.isDeployedRun probe st n).get? j = some true := by
  induction i generalizing st n j with
  | zero =>
      cases n with
      | zero => omega
      | succ m =>
          cases j with
          | zero => omega
          | succ j' =>
              simp only [ToNativeSmartAccount.isDeployedRun,
                List.get?_cons_zero, Option.some.injEq] at hi
              simp only [ToNativeSmartAccount.isDeployedRun,
                List.get?_cons_succ]
              have hdep :
                  (ToNativeSmartAccount.isDeployed probe st).2.deployed
                    = true := by
                rw [← ToNativeSmartAccount.isDeployed_fst_eq_deployed]
                exact hi
              rw [ToNativeSmartAccount.isDeployedRun_of_deployed probe _ hdep m]
              exact ToNativeSmartAccount.replicate_true_get? m j' (by omega)
  | succ i' ih =>
      cases n with
      | zero => omega
      | succ m =>
          cases j with
          | zero => omega
          | succ j' =>
              simp only [ToNativeSmartAccount.isDeployedRun,
                List.get?_cons_succ] at hi ⊢
              exact ih _ m j' (by omega) (by omega) hi

/-- C3 witness: with a probe that reports code present, three successive
invocations on a fresh instance yield `true` on the first call and still
`true` on the third. -/
theorem claim3_isDeployed_monotone_witness :
    (ToNativeSmartAccount.isDeployedRun (fun _ => true) ⟨false, 0⟩ 3).get? 2
      = some true :=
  claim3_isDeployed_monotone (fun _ => true) ⟨false, 0⟩ 3 0 2 (by decide)
    (by decide) rfl

/-- C4: for every non-empty list of calls, decoding the encoding
reproduces the same list in order, with each `value` defaulted to `0`
and each `data` defaulted to `0x` where originally omitted; a singleton
list goes through the single-call `execute` dispatch and a list of two
or more calls through the `executeBatch` dispatch. -/
theorem claim4_encode_decode_roundtrip
    (calls : List ToSimpleNativeSmartAccount.Call) (h : calls ≠ []) :
    ToSimpleNativeSmartAccount.decodeCalls
        (ToSimpleNativeSmartAccount.encodeCalls calls)
      = Except.ok (calls.map ToSimpleNativeSmartAccount.normalizeCall)
    ∧ (calls.length = 1 →
        (ToSimpleNativeSmartAccount.encodeCalls calls).isSingleDispatch = true)
    ∧ (1 < calls.length →
        (ToSimpleNativeSmartAccount.encodeCalls calls).isBatchDispatch
          = true) := by
  match calls with
  | [] => exact absurd rfl h
  | [c] =>
      refine ⟨rfl, fun _ => rfl, fun hlen => ?_⟩
      simp at hlen
  | c1 :: c2 :: cs =>
      refine ⟨?_, fun hlen => ?_, fun _ => rfl⟩
      · show ToSimpleNativeSmartAccount.decodeCalls
            (ToSimpleNativeSmartAccount.CallData.executeBatch
              ((c1 :: c2 :: cs).map fun call => call.toAddr)
              ((c1 :: c2 :: cs).map fun call => call.value.getD 0)
              ((c1 :: c2 :: cs).map fun call => call.data.getD "0x"))
          = Except.ok
              ((c1 :: c2 :: cs).map ToSimpleNativeSmartAccount.normalizeCall)
        rw [ToSimpleNativeSmartAccount.decodeCalls,
          ToSimpleNativeSmartAccount.decodeBatchCalls_maps]
      · simp at hlen

/-- C4 witness: a singleton list and a two-element list both decode back
to their defaulted forms through the two dispatch paths. -/
theorem claim4_encode_decode_roundtrip_witness :
    ToSimpleNativeSmartAccount.decodeCalls
        (ToSimpleNativeSmartAccount.encodeCalls
          [⟨"0xAA", some "0x1234", some 0⟩])
      = Except.ok [⟨"0xAA", some "0x1234", some 0⟩]
    ∧ ToSimpleNativeSmartAccount.decodeCalls
        (ToSimpleNativeSmartAccount.encodeCalls
          [⟨"0xA", none, none⟩, ⟨"0xB", none, some 100⟩])
      = Except.ok
          [⟨"0xA", some "0x", some 0⟩, ⟨"0xB", some "0x", some 100⟩] :=
  ⟨(claim4_encode_decode_roundtrip [⟨"0xAA", some "0x1234", some 0⟩]
      (by decide)).1,
   (claim4_encode_decode_roundtrip
      [⟨"0xA", none, none⟩, ⟨"0xB", none, some 100⟩] (by decide)).1⟩

/-- C6: on calldata whose selector is neither of the two dispatch
selectors, `decodeCalls` never returns a call list: an in-ABI function
raises the explicit decode error naming that function, and a selector
outside the ABI propagates the signature-not-found error naming the
selector. -/
theorem claim6_decode_unrecognized_error
    (cd : ToSimpleNativeSmartAccount.CallData)
    (h1 : cd.isSingleDispatch = false) (h2 : cd.isBatchDispatch = false) :
    (∀ calls, ToSimpleNativeSmartAccount.decodeCalls cd ≠ Except.ok calls)
    ∧ (∀ name, cd = ToSimpleNativeSmartAccount.CallData.otherFunction name →
        ToSimpleNativeSmartAccount.decodeCalls cd
          = Except.error ("unable to decode calls for \"" ++ name ++ "\""))
    ∧ (∀ sel, cd = ToSimpleNativeSmartAccount.CallData.unknownSelector sel →
        ToSimpleNativeSmartAccount.decodeCalls cd
          = Except.error
              ("Encoded function signature \"" ++ sel
                ++ "\" not found on ABI")) := by
  cases cd with
  | execute dest value func => simp [ToSimpleNativeSmartAccount.CallData.isSingleDispatch] at h1
  | executeBatch dest value func => simp [ToSimpleNativeSmartAccount.CallData.isBatchDispatch] at h2
  | otherFunction name =>
      refine ⟨fun calls hc => ?_, fun name' he => ?_, fun sel he => ?_⟩
      · simp [ToSimpleNativeSmartAccount.decodeCalls] at hc
      · cases he; rfl
      · cases he
  | unknownSelector sel =>
      refine ⟨fun calls hc => ?_, fun name' he => ?_, fun sel' he => ?_⟩
      · simp [ToSimpleNativeSmartAccount.decodeCalls] at hc
      · cases he
      · cases he; rfl

/-- C6 witness: calldata for the in-ABI, non-dispatch function
`initialize` decodes to the explicit error naming it. -/
theorem claim6_decode_unrecognized_error_witness :
    ToSimpleNativeSmartAccount.decodeCalls
        (ToSimpleNativeSmartAccount.CallData.otherFunction "initialize")
      = Except.error ("unable to decode calls for \"" ++ "initialize"
          ++ "\"") :=
  (claim6_decode_unrecognized_error
      (ToSimpleNativeSmartAccount.CallData.otherFunction "initialize") rfl
      rfl).2.1 "initialize" rfl

section FactoryClaims

open ToNativeSmartAccount

/-- C1: every Factory-wrapped signing operation resolves the wrapped
`getDeployerArgs()` alongside the matching implementation signing
operation; when the resolved args carry both the deployer address and
the deployer calldata the result is the ERC-6492 envelope serialization
of (deployer, deployerData, raw signature), and otherwise it is exactly
the raw implementation signature, unchanged. The raw-hash `sign`
operation exists on the wrapped account only when the implementation
provides one. -/
theorem claim1_signature_wrapping {Msg TD H Sig : Type}
    (implArgs : DeployerArgs) (implSign : H → Sig)
    (implSignMessage : Msg → Sig) (implSignTypedData : TD → Sig)
    (probe : Nat → Bool) (st : AccountState) (msg : Msg) (td : TD) (h : H) :
    (∀ d dd,
      (getDeployerArgs implArgs probe st).1.deployer = some d →
      (getDeployerArgs implArgs probe st).1.deployerData = some dd →
        signMessage implArgs implSignMessage probe st msg
            = (serializeErc6492Signature d dd (implSignMessage msg),
               (getDeployerArgs implArgs probe st).2)
          ∧ signTypedData implArgs implSignTypedData probe st td
            = (serializeErc6492Signature d dd (implSignTypedData td),
               (getDeployerArgs implArgs probe st).2)
          ∧ sign implArgs (some implSign) probe st h
            = some (serializeErc6492Signature d dd (implSign h),
               (getDeployerArgs implArgs probe st).2))
    ∧ ((getDeployerArgs implArgs probe st).1.deployer = none
        ∨ (getDeployerArgs implArgs probe st).1.deployerData = none →
        signMessage implArgs implSignMessage probe st msg
            = (WireSignature.plain (implSignMessage msg),
               (getDeployerArgs implArgs probe st).2)
          ∧ signTypedData implArgs implSignTypedData probe st td
            = (WireSignature.plain (implSignTypedData td),
               (getDeployerArgs implArgs probe st).2)
          ∧ sign implArgs (some implSign) probe st h
            = some (WireSignature.plain (implSign h),
               (getDeployerArgs implArgs probe st).2))
    ∧ sign implArgs (none : Option (H → Sig)) probe st h = none := by
  refine ⟨fun d dd h1 h2 => ?_, fun hor => ?_, rfl⟩
  · refine ⟨?_, ?_, ?_⟩ <;>
      simp [signMessage, signTypedData, sign, h1, h2,
        serializeErc6492Signature]
  · rcases hor with h1 | h1
    · refine ⟨?_, ?_, ?_⟩ <;>
        simp [signMessage, signTypedData, sign, h1]
    · cases hd : (getDeployerArgs implArgs probe st).1.deployer with
      | none =>
          refine ⟨?_, ?_, ?_⟩ <;>
            simp [signMessage, signTypedData, sign, hd]
      | some d =>
          refine ⟨?_, ?_, ?_⟩ <;>
            simp [signMessage, signTypedData, sign, hd, h1]

/-- C1 witness: with both deployer fields present (undeployed account,
probe reports no code), `signMessage` and `sign` wrap the raw signature
in the ERC-6492 envelope. -/
theorem claim1_signature_wrapping_witness :
    signMessage ⟨some "0xD", some "0xDD"⟩ (fun m : String => "sig:" ++ m)
        (fun _ => false) ⟨false, 0⟩ "hi"
      = (serializeErc6492Signature "0xD" "0xDD" ("sig:" ++ "hi"),
         ⟨false, 1⟩)
    ∧ sign ⟨some "0xD", some "0xDD"⟩ (some fun m : String => "sig:" ++ m)
        (fun _ => false) ⟨false, 0⟩ "h"
      = some (serializeErc6492Signature "0xD" "0xDD" ("sig:" ++ "h"),
         ⟨false, 1⟩) :=
  ⟨((claim1_signature_wrapping ⟨some "0xD", some "0xDD"⟩
      (fun m : String => "sig:" ++ m) (fun m : String => "sig:" ++ m)
      (fun m : String => "sig:" ++ m) (fun _ => false) ⟨false, 0⟩ "hi" "td"
      "h").1 "0xD" "0xDD" rfl rfl).1,
   ((claim1_signature_wrapping ⟨some "0xD", some "0xDD"⟩
      (fun m : String => "sig:" ++ m) (fun m : String => "sig:" ++ m)
      (fun m : String => "sig:" ++ m) (fun _ => false) ⟨false, 0⟩ "hi" "td"
      "h").1 "0xD" "0xDD" rfl rfl).2.2⟩

/-- C2: the wrapped `getDeployerArgs()` answers both fields undefined
exactly when `isDeployed()` answers true for that call, and otherwise
returns the implementation result unchanged; the Simple implementation
result always carries both the fixed deployer address and the encoded
`createAccount(ownerAddress, nonce)` calldata, so the composed account
never reports exactly one of the two fields. -/
theorem claim2_deployer_args_gating (probe : Nat → Bool) (st : AccountState)
    (implArgs : DeployerArgs) (ownerAddr : Address) (nonce : Nat) :
    ((isDeployed probe st).1 = true →
      getDeployerArgs implArgs probe st
        = (⟨none, none⟩, (isDeployed probe st).2))
    ∧ ((isDeployed probe st).1 = false →
      getDeployerArgs implArgs probe st
        = (implArgs, (isDeployed probe st).2))
    ∧ (ToSimpleNativeSmartAccount.getDeployerArgs ownerAddr nonce).deployer
        = some ToSimpleNativeSmartAccount.deployerAddress
    ∧ (ToSimpleNativeSmartAccount.getDeployerArgs ownerAddr nonce).deployerData
        = some (ToSimpleNativeSmartAccount.createAccountData ownerAddr nonce)
    ∧ ((getDeployerArgs
          (ToSimpleNativeSmartAccount.getDeployerArgs ownerAddr nonce) probe
          st).1.deployer.isSome
        = (getDeployerArgs
          (ToSimpleNativeSmartAccount.getDeployerArgs ownerAddr nonce) probe
          st).1.deployerData.isSome) := by
  refine ⟨fun hdep => ?_, fun hdep => ?_, rfl, rfl, ?_⟩
  · simp [getDeployerArgs, hdep]
  · simp [getDeployerArgs, hdep]
  · by_cases hdep : (isDeployed probe st).1 <;>
      simp [getDeployerArgs, hdep, ToSimpleNativeSmartAccount.getDeployerArgs]

/-- C2 witness: with the probe reporting no code, the wrapped
`getDeployerArgs` of a Simple account returns the implementation args
unchanged (both fields present). -/
theorem claim2_deployer_args_gating_witness :
    getDeployerArgs (ToSimpleNativeSmartAccount.getDeployerArgs "0xOWNER" 0)
        (fun _ => false) ⟨false, 0⟩
      = (ToSimpleNativeSmartAccount.getDeployerArgs "0xOWNER" 0,
         ⟨false, 1⟩) :=
  (claim2_deployer_args_gating (fun _ => false) ⟨false, 0⟩
      (ToSimpleNativeSmartAccount.getDeployerArgs "0xOWNER" 0) "0xOWNER"
      0).2.1 rfl

/-- C7: the wrapped `getNonce` uses a caller-supplied key verbatim
without consuming the nonce key manager; otherwise it consumes one key
scoped to (address, chainId); in both cases the derived key is handed
to the implementation-provided `getNonce` when one exists and otherwise
used in the on-chain predeploy lookup keyed by (address, key). -/
theorem claim7_getNonce_key_derivation (address : Address) (chainId : Nat)
    (consume : Address → Nat → Nat → Nat × Nat)
    (implGetNonce : Option (Nat → Nat)) (chainNonce : Address → Nat → Nat)
    (parameters : Option GetNonceParameters) (mgr k : Nat) :
    (parameters = some ⟨some k⟩ →
      getNonce address chainId consume implGetNonce chainNonce parameters mgr
        = ((match implGetNonce with
            | some g => g k
            | none => chainNonce address k), mgr))
    ∧ ((parameters.bind fun p => p.key) = none →
      getNonce address chainId consume implGetNonce chainNonce parameters mgr
        = ((match implGetNonce with
            | some g => g (consume address chainId mgr).1
            | none => chainNonce address (consume address chainId mgr).1),
           (consume address chainId mgr).2)) := by
  constructor
  · intro hp
    subst hp
    cases implGetNonce <;> simp [getNonce]
  · intro hp
    cases implGetNonce <;> simp [getNonce, hp]

/-- C7 witness: a supplied key `5` is used verbatim (manager state `0`
untouched, manager not consumed) and, with no implementation override,
the nonce comes from the on-chain lookup at key `5`. -/
theorem claim7_getNonce_key_derivation_witness :
    getNonce "0xA" 7 (fun _ _ m => (m + 100, m + 1)) none
        (fun _ key => key * 2) (some ⟨some 5⟩) 0
      = (10, 0) :=
  (claim7_getNonce_key_derivation "0xA" 7 (fun _ _ m => (m + 100, m + 1))
      none (fun _ key => key * 2) (some ⟨some 5⟩) 0 5).1 rfl

end FactoryClaims

section SimpleClaims

open ToSimpleNativeSmartAccount

/-- C5: each Simple signing operation returns the owner raw-hash
signature over the EIP-712 hash whose domain is (name
`Simple Native Smart Wallet`, version `1`, the client chain id, the
account address as verifying contract), whose primary type is
`SimpleNativeSmartWalletMessage` with the single `bytes32` field
`hash`, that field being respectively the given raw hash,
`hashMessage(message)`, and `hashTypedData(parameters)`. -/
theorem claim5_replay_safe_signing (owner : LocalAccount)
    (f : HashValue → Hex) (address : Address) (chainId : Nat)
    (hash : HashValue) (message : String)
    (parameters : TypedDataParameters) (hsign : owner.sign = some f) :
    ToSimpleNativeSmartAccount.sign owner address chainId hash
        = Except.ok (f (HashValue.ofTypedData
            (some ⟨"Simple Native Smart Wallet", "1", chainId, address⟩)
            [("SimpleNativeSmartWalletMessage", [("hash", "bytes32")])]
            "SimpleNativeSmartWalletMessage" (MessageValue.hashField hash)))
    ∧ ToSimpleNativeSmartAccount.signMessage owner address chainId message
        = Except.ok (f (HashValue.ofTypedData
            (some ⟨"Simple Native Smart Wallet", "1", chainId, address⟩)
            [("SimpleNativeSmartWalletMessage", [("hash", "bytes32")])]
            "SimpleNativeSmartWalletMessage"
            (MessageValue.hashField (hashMessage message))))
    ∧ ToSimpleNativeSmartAccount.signTypedData owner address chainId
          parameters
        = Except.ok (f (HashValue.ofTypedData
            (some ⟨"Simple Native Smart Wallet", "1", chainId, address⟩)
            [("SimpleNativeSmartWalletMessage", [("hash", "bytes32")])]
            "SimpleNativeSmartWalletMessage"
            (MessageValue.hashField (hashTypedData parameters.domain
              parameters.types parameters.primaryType
              parameters.message)))) := by
  refine ⟨?_, ?_, ?_⟩ <;>
    simp [ToSimpleNativeSmartAccount.sign,
      ToSimpleNativeSmartAccount.signMessage,
      ToSimpleNativeSmartAccount.signTypedData, signWithOwner,
      toReplaySafeHash, hashTypedData, hashMessage, hsign]

/-- C5 witness: a concrete owner with a raw-hash capability signs the
replay-safe hash of a raw bytes32. -/
theorem claim5_replay_safe_signing_witness :
    ToSimpleNativeSmartAccount.sign ⟨"0xOWNER", some fun _ => "0xsig"⟩
        "0xACCT" 1 (HashValue.raw "0xhash")
      = Except.ok "0xsig" :=
  (claim5_replay_safe_signing ⟨"0xOWNER", some fun _ => "0xsig"⟩
      (fun _ => "0xsig") "0xACCT" 1 (HashValue.raw "0xhash") "m"
      ⟨none, [], "T", MessageValue.fields []⟩ rfl).1

/-- C8 counterexample: the default `transaction.estimateGas` hook does
not return the pre-existing `verificationGasLimit` exactly for all
uint256 values: at `2 ^ 53 + 1` the JavaScript `BigInt(Number(x))`
round trip collapses the value to `2 ^ 53`. -/
theorem claim8_counterexample :
    (estimateGas ⟨some (2 ^ 53 + 1)⟩).verificationGasLimit
      ≠ 2 ^ 53 + 1 := by decide

/-- C8 (amended): the default `transaction.estimateGas` hook computes no
fresh estimate; it returns the pre-existing `verificationGasLimit`
passed through the JavaScript `BigInt(Number(x))` round trip, which is
exactly the original value whenever it is below `2 ^ 53` (and `0` when
the field is absent), but only the nearest IEEE-754 double for larger
values. -/
theorem claim8_estimate_gas_passthrough
    (transaction : TransactionRequest) :
    (transaction.verificationGasLimit = none →
      (estimateGas transaction).verificationGasLimit = 0)
    ∧ (∀ n, transaction.verificationGasLimit = some n → n < 2 ^ 53 →
      (estimateGas transaction).verificationGasLimit = n) := by
  constructor
  · intro hnone
    simp [estimateGas, hnone, float64RoundNat]
  · intro n hsome hlt
    simp only [estimateGas, hsome, Option.getD_some]
    unfold float64RoundNat
    rw [if_pos hlt]

/-- C8 witness: a representable pre-existing limit of `7` passes through
unchanged. -/
theorem claim8_estimate_gas_passthrough_witness :
    (estimateGas ⟨some 7⟩).verificationGasLimit = 7 :=
  (claim8_estimate_gas_passthrough ⟨some 7⟩).2 7 rfl (by norm_num)

end SimpleClaims
